import Mathlib

set_option maxRecDepth 16384

/-!
# Verification of the cnav context-aggregation pipeline and inference gateway

Shallow embedding of the core of the `cnav` CLI (a TypeScript tool that
summarises git commits with an LLM):

* `src/services/git.ts` — commit retrieval post-processing (lock filtering,
  binary-diff handling), changelog since-date resolution, project-tree
  construction;
* `src/services/analysis.ts` — `createAnalysisPrompt`;
* `src/services/changelog.ts` — `createChangelogPrompt`;
* `src/utils/llm_utils.ts` — `getLLMProvider` / `performLLMInference`;
* `src/utils/utils.ts` — `EXCLUDED_DIR_NAMES`.

JavaScript strings are modelled as Lean `String` (sequences of characters);
`split`, `join`, `trim`, `includes`, `startsWith` and friends are given
executable Lean translations below.  JavaScript truthiness on optional
strings (`undefined`/`null`/`""` are falsy) is modelled explicitly.
-/

/-! ## JavaScript string primitives -/

/-- `hasInfix needle hay` is JavaScript `hay.includes(needle)` on char lists. -/
def hasInfix (needle : List Char) : List Char → Bool
  | [] => needle.isEmpty
  | c :: rest => needle.isPrefixOf (c :: rest) || hasInfix needle rest

/-- JavaScript `s.includes(pat)`. -/
def strIncludes (s pat : String) : Bool := hasInfix pat.data s.data

/-- JavaScript `s.startsWith(pre)`. -/
def jsStartsWith (s pre : String) : Bool := pre.data.isPrefixOf s.data

/-- JavaScript `String.prototype.trim` (both ends, whitespace). -/
def jsTrim (s : String) : String :=
  String.mk (((s.data.dropWhile Char.isWhitespace).reverse.dropWhile Char.isWhitespace).reverse)

/-- `splitOnChar sep cs` is JavaScript `s.split(sep)` for a one-character
separator: every occurrence of `sep` separates two (possibly empty) pieces. -/
def splitOnChar (sep : Char) : List Char → List (List Char)
  | [] => [[]]
  | c :: rest =>
    match splitOnChar sep rest with
    | [] => if c = sep then [[], []] else [[c]]
    | l :: ls => if c = sep then [] :: l :: ls else (c :: l) :: ls

/-- `joinChar sep L` is JavaScript `L.join(sep)` for a one-character separator. -/
def joinChar (sep : Char) : List (List Char) → List Char
  | [] => []
  | [l] => l
  | l :: ls => l ++ sep :: joinChar sep ls

/-- JavaScript `s.split(sep)` at the `String` level. -/
def jsSplit (sep : Char) (s : String) : List String :=
  (splitOnChar sep s.data).map String.mk

/-- JavaScript `lines.join('\n')`. -/
def jsJoinNl (ls : List String) : String :=
  String.mk (joinChar '\n' (ls.map String.data))

/-- JavaScript truthiness of an optional string: `undefined`, `null` and
`""` are falsy. -/
def jsTruthyOpt (o : Option String) : Bool :=
  match o with
  | none => false
  | some s => !(s == "")

/-- JavaScript `s || d` for a string `s`. -/
def jsOrS (s d : String) : String := if s = "" then d else s

/-- JavaScript `o || d` for an optional string `o`. -/
def jsOrOpt (o : Option String) (d : String) : String :=
  match o with
  | none => d
  | some s => jsOrS s d

/-! ## RepoInspector: `src/services/git.ts`

The three retrieval operations `getLastCommits`, `getCommitsFromLastDays`
and `getCommitsSinceLastChangelog` post-process every commit in the selected
range with the same body (triplicated verbatim in the source):

```ts
const files = filesResult.trim().split('\n').filter(file => file.trim() !== '');
const filteredFiles = files.filter(file => !file.match(/.*lock.*\..*/));
const filteredDiff = diff.split('\n').filter(line => !line.includes('lock')).join('\n');
const isBinaryFile = diff.includes('Binary files');
if (isBinaryFile) return { ...commit, diff: '', files: filteredFiles };
return { ...commit, diff: filteredDiff, files: filteredFiles };
```

`processCommit` below is that shared body, taking the raw `git show` diff and
the raw name-only file listing as inputs.
-/

/-- Commit record (`CommitData` in `git.ts`): log fields plus the filtered
diff and file list attached by the retrieval operations. -/
structure CommitData where
  hash : String
  author_name : String
  author_email : String
  date : String
  message : String
  diff : String := ""
  files : List String := []
deriving DecidableEq, Repr

/-- Scan for the first occurrence of the literal `lock` and return the
remainder of the string after it. -/
def dropAfterLock : List Char → Option (List Char)
  | 'l' :: 'o' :: 'c' :: 'k' :: rest => some rest
  | _ :: rest => dropAfterLock rest
  | [] => none

/-- JavaScript `file.match(/.*lock.*\..*/) !== null`: the regex requires the
literal `lock` followed — possibly after other characters — by a literal `.`.
Any occurrence of `lock` with a later `.` works exactly when the first
occurrence has a later `.`, so scanning for the first `lock` suffices. -/
def matchesLockPattern (f : String) : Bool :=
  match dropAfterLock f.data with
  | some rest => rest.contains '.'
  | none => false

/-- The raw name-only listing, trimmed, split on newlines, blank lines
dropped — `filesResult.trim().split('\n').filter(file => file.trim() !== '')`. -/
def rawFilesOf (filesResult : String) : List String :=
  (jsSplit '\n' (jsTrim filesResult)).filter (fun f => !(jsTrim f == ""))

/-- `files.filter(file => !file.match(/.*lock.*\..*/))`. -/
def lockFileFilter (files : List String) : List String :=
  files.filter (fun f => !(matchesLockPattern f))

/-- `diff.split('\n').filter(line => !line.includes('lock')).join('\n')`. -/
def filterDiffLines (diff : String) : String :=
  jsJoinNl ((jsSplit '\n' diff).filter (fun l => !(strIncludes l "lock")))

/-- The per-commit post-processing shared by `getLastCommits`,
`getCommitsFromLastDays` and `getCommitsSinceLastChangelog`. -/
def processCommit (commit : CommitData) (diff filesResult : String) : CommitData :=
  let filteredFiles := lockFileFilter (rawFilesOf filesResult)
  let filteredDiff := filterDiffLines diff
  if strIncludes diff "Binary files" then
    { commit with diff := "", files := filteredFiles }
  else
    { commit with diff := filteredDiff, files := filteredFiles }

/-! ### Since-date resolution of `getCommitsSinceLastChangelog`

```ts
if (await fs.pathExists(changelogPath)) {
  const content = await fs.readFile(changelogPath, 'utf8');
  const dateMatch = content.match(/\d{4}-\d{2}-\d{2}/);
  if (dateMatch) sinceDate = dateMatch[0];
}
if (!sinceDate) {
  const date = new Date();
  date.setDate(date.getDate() - 30);
  sinceDate = date.toISOString().slice(0, 10);
}
```

The changelog file is modelled as `Option String` (absent / its content), and
the clock as the current day number since 1970-01-01; `setDate(getDate()-30)`
followed by `toISOString().slice(0,10)` is 30 calendar days back (the
time-of-day and timezone component of `Date` is abstracted away). -/

/-- Match of `/\d{4}-\d{2}-\d{2}/` anchored at the start of `l`: ten
characters `dddd-dd-dd`.  Returns the matched characters. -/
def isDateAt (l : List Char) : Option (List Char) :=
  match l.take 10 with
  | [a, b, c, d, e, f, g, h, i, j] =>
    if a.isDigit && b.isDigit && c.isDigit && d.isDigit && (e == '-') &&
       f.isDigit && g.isDigit && (h == '-') && i.isDigit && j.isDigit then
      some [a, b, c, d, e, f, g, h, i, j]
    else none
  | _ => none

/-- `content.match(/\d{4}-\d{2}-\d{2}/)`: the match at the leftmost position
where the fixed-width pattern fits. -/
def findFirstDate : List Char → Option String
  | [] => none
  | c :: rest =>
    match isDateAt (c :: rest) with
    | some d => some (String.mk d)
    | none => findFirstDate rest

/-- Gregorian date (year, month, day) of a day count since 1970-01-01
(Howard Hinnant's civil-from-days algorithm, valid for days ≥ 0). -/
def civilFromEpochDays (n : Nat) : Nat × Nat × Nat :=
  let z := n + 719468
  let era := z / 146097
  let doe := z % 146097
  let yoe := (doe - doe / 1460 + doe / 36524 - doe / 146096) / 365
  let y := yoe + era * 400
  let doy := doe - (365 * yoe + yoe / 4 - yoe / 100)
  let mp := (5 * doy + 2) / 153
  let d := doy - (153 * mp + 2) / 5 + 1
  let m := if mp < 10 then mp + 3 else mp - 9
  (if m ≤ 2 then y + 1 else y, m, d)

/-- Zero-pad to two digits. -/
def pad2 (n : Nat) : String := if n < 10 then "0" ++ toString n else toString n

/-- Zero-pad to four digits. -/
def pad4 (n : Nat) : String :=
  if n < 10 then "000" ++ toString n
  else if n < 100 then "00" ++ toString n
  else if n < 1000 then "0" ++ toString n
  else toString n

/-- `date.toISOString().slice(0, 10)` for a day count since 1970-01-01. -/
def isoOfEpochDays (n : Nat) : String :=
  let c := civilFromEpochDays n
  pad4 c.1 ++ "-" ++ pad2 c.2.1 ++ "-" ++ pad2 c.2.2

/-- The since-date resolution of `getCommitsSinceLastChangelog`:
first `\d{4}-\d{2}-\d{2}` occurrence in the changelog when present,
otherwise 30 days before today. -/
def resolveSinceDate (changelogContent : Option String) (todayEpochDays : Nat) : String :=
  match changelogContent.bind (fun c => findFirstDate c.data) with
  | some d => d
  | none => isoOfEpochDays (todayEpochDays - 30)

/-! ## ProjectContextBuilder: `src/utils/utils.ts` and `getProjectTree`

`EXCLUDED_DIR_NAMES` is transcribed verbatim (duplicates included);
`getExcludedDirectories()` returns a copy of it, and `getProjectTree` builds
a `Set` from that copy, so membership is literal string equality. -/

def EXCLUDED_DIR_NAMES : List String :=
  ["node_modules", "dist", "build", "coverage", ".next", ".nuxt", "out",
   "public", "static", "assets",
   "__pycache__", ".pytest_cache", "venv", "env", ".venv", ".env",
   "site-packages", ".python-version", ".pyenv", "wheels", "*.egg-info",
   "vendor", "pkg", "mod",
   "target",
   ".gradle", ".mvn", "maven-archiver", "maven-status", "surefire-reports",
   "cmake-build-*", "Debug", "Release", "x64", "x86", "Win32", ".vs",
   "CMakeFiles", "CMakeCache.txt",
   "bin", "obj", "packages", "TestResults", ".vs",
   ".bundle", "vendor/bundle",
   ".composer",
   "migrations",
   ".git", ".svn", ".hg", ".bzr",
   ".vscode", ".idea", ".eclipse", ".settings", ".project", ".classpath",
   ".DS_Store", "Thumbs.db",
   ".terraform", ".vagrant", "terraform.tfstate*", ".serverless",
   ".cache", ".tmp", "tmp", "temp", ".temp",
   ".env", ".env.local", ".env.production", ".env.development",
   ".env.staging", ".env.test",
   "logs", ".logs", "*.log",
   ".npm", ".yarn", ".pnpm-store",
   "_site", ".jekyll-cache", ".docusaurus",
   "test-results", "e2e-results", "playwright-report",
   ".expo", "ios/build", "android/build", "android/.gradle"]

/-- `getExcludedDirectories()` returns a copy of `EXCLUDED_DIR_NAMES`. -/
def getExcludedDirectories : List String := EXCLUDED_DIR_NAMES

/-- `git ls-files` output split into lines, blank lines dropped. -/
def projectTreeFileList (lsFiles : String) : List String :=
  (jsSplit '\n' lsFiles).filter (fun f => !(jsTrim f == ""))

/-- `fileList.filter(file => !file.split('/').some(part => excludedDirectories.has(part)))`. -/
def projectTreeFilteredFiles (lsFiles : String) : List String :=
  (projectTreeFileList lsFiles).filter
    (fun f => !((jsSplit '/' f).any (fun part => getExcludedDirectories.contains part)))

/-- The ad hoc nested-map tree of `getProjectTree`: a JavaScript object maps
each name either to `null` (a file) or to a nested object (a directory).
The object is modelled as its ordered entry list; each entry carries a key
and either a `null` value (`consFile`) or a nested object (`consDir`). -/
inductive JEnt where
  | nil : JEnt
  | consFile : String → JEnt → JEnt
  | consDir : String → JEnt → JEnt → JEnt
deriving DecidableEq, Repr

/-- A JavaScript value stored under a key: `none` is `null` (a file marker),
`some c` is a nested object with entries `c`. -/
abbrev JVal := Option JEnt

/-- An entry with key `k`, value `v`, followed by `rest`. -/
def JEnt.consVal (k : String) (v : JVal) (rest : JEnt) : JEnt :=
  match v with
  | none => .consFile k rest
  | some c => .consDir k c rest

/-- JavaScript property read `m[k]` (`none` for a missing key). -/
def getKey : JEnt → String → Option JVal
  | .nil, _ => none
  | .consFile k rest, key => if k = key then some none else getKey rest key
  | .consDir k c rest, key => if k = key then some (some c) else getKey rest key

/-- JavaScript property write `m[k] = v` (overwrites in place, appends new). -/
def setKey : JEnt → String → JVal → JEnt
  | .nil, key, v => .consVal key v .nil
  | .consFile k rest, key, v =>
    if k = key then .consVal key v rest else .consFile k (setKey rest key v)
  | .consDir k c rest, key, v =>
    if k = key then .consVal key v rest else .consDir k c (setKey rest key v)

/-- The object `current[part]` descends into: its entries when it is a
(truthy) directory object, a fresh `{}` when it is missing or `null`
(`if (!current[part]) current[part] = {}`). -/
def childFor (m : JEnt) (p : String) : JEnt :=
  match getKey m p with
  | some (some c) => c
  | _ => .nil

/-- The per-file insertion loop of `getProjectTree`:
`for (let i = 0; i < depthToProcess; i++)` with
`depthToProcess = Math.min(parts.length, maxDepth)`; the last component of
the path is stored as a `null` leaf, intermediate components as objects. -/
def insertLoop (m : JEnt) (parts : List String) (budget : Nat) : JEnt :=
  match budget, parts with
  | 0, _ => m
  | _ + 1, [] => m
  | b + 1, p :: rest =>
    match rest with
    | [] => setKey m p none
    | _ :: _ => setKey m p (some (insertLoop (childFor m p) rest b))

/-- The tree fold of `getProjectTree` over the filtered tracked-file list. -/
def buildTree (files : List String) (maxDepth : Nat) : JEnt :=
  files.foldl
    (fun t f =>
      let parts := jsSplit '/' f
      insertLoop t parts (Nat.min parts.length maxDepth))
    .nil

/-- All keys of the object satisfy `P`, recursively. -/
def entriesOK (P : String → Prop) : JEnt → Prop
  | .nil => True
  | .consFile k rest => P k ∧ entriesOK P rest
  | .consDir k c rest => P k ∧ entriesOK P c ∧ entriesOK P rest

/-- `P` holds of all keys of a stored value. -/
def valOK (P : String → Prop) : JVal → Prop
  | none => True
  | some c => entriesOK P c

/-- `EPath es path` — `path` is the key sequence from the root of `es` to
some node of the tree (the rendered tree prints exactly these keys). -/
inductive EPath : JEnt → List String → Prop where
  | headFile (k : String) (rest : JEnt) : EPath (.consFile k rest) [k]
  | headDir (k : String) (c rest : JEnt) : EPath (.consDir k c rest) [k]
  | child (k : String) (c rest : JEnt) (p : List String) :
      EPath c p → EPath (.consDir k c rest) (k :: p)
  | tailFile (k : String) (rest : JEnt) (p : List String) :
      EPath rest p → EPath (.consFile k rest) p
  | tailDir (k : String) (c rest : JEnt) (p : List String) :
      EPath rest p → EPath (.consDir k c rest) p

/-! ## PromptAssembler: `createAnalysisPrompt` (`src/services/analysis.ts`)
and `createChangelogPrompt` (`src/services/changelog.ts`)

`projectInfo` is the dynamic record produced by `getProjectInfo`; the prompt
builders only read `packageJson` (name / version / description / dependency
keys), `configFiles` (category → manifest filename → entry) and `README`
(path → content), so the model carries exactly those.  Key-order sensitive
constructs (`Object.keys`, `Object.entries`) are modelled by ordered
association lists. -/

structure PackageJson where
  name : Option String := none
  version : Option String := none
  description : Option String := none
  dependencies : List String := []
deriving DecidableEq, Repr

structure ConfigEntry where
  content : String := ""
deriving DecidableEq, Repr

structure ProjectInfo where
  packageJson : Option PackageJson := none
  configFiles : Option (List (String × List (String × ConfigEntry))) := none
  README : List (String × String) := []
deriving DecidableEq, Repr

structure AnalysisOptions where
  performCodeReview : Bool
  detailedSummary : Option Bool := none
deriving DecidableEq, Repr

/-- `options.performCodeReview ? <code-review directive> : <summary directive>`. -/
def analysisModeBlock (performCodeReview : Bool) : String :=
  if performCodeReview then
    "This is a CODE REVIEW request. Please carefully examine the code changes for:\n- Potential bugs or issues\n- Security vulnerabilities\n- Performance concerns\n- Code style and best practices\n- Architectural considerations\n- Suggestions for improvement\n\n"
  else
    "This is a CHANGE SUMMARY request. Please provide:\n- A concise overview of what changed\n- Key files and components affected\n\n"

/-- The `projectInfo.packageJson` lines of `createAnalysisPrompt`. -/
def packageJsonBlock (pi : ProjectInfo) : String :=
  match pi.packageJson with
  | none => ""
  | some pj =>
    "Project name: " ++ jsOrOpt pj.name "Unknown" ++ "\n" ++
    "Description: " ++ jsOrOpt pj.description "N/A" ++ "\n" ++
    "Dependencies: " ++ jsOrS (String.intercalate ", " pj.dependencies) "None" ++ "\n"

/-- `requirements.txt` summary line: non-blank, non-comment lines, first 8. -/
def requirementsLine (entry : ConfigEntry) : String :=
  let deps := (jsSplit '\n' entry.content).filter
    (fun r => !(jsTrim r == "") && !(jsStartsWith r "#"))
  "Python requirements: " ++ String.intercalate ", " (deps.take 8) ++
    (if deps.length > 8 then " and more..." else "") ++ "\n"

/-- The `projectInfo.configFiles` lines of `createAnalysisPrompt`. -/
def configFilesBlock (pi : ProjectInfo) : String :=
  match pi.configFiles with
  | none => ""
  | some cf =>
    let technologies := cf.map Prod.fst
    (if technologies.length > 0 then
      "Technologies detected: " ++ String.intercalate ", " technologies ++ "\n"
     else "") ++
    (match cf.lookup "python" with
     | none => ""
     | some py =>
       (if (py.lookup "pyproject.toml").isSome then
         "Python project with pyproject.toml configuration\n"
        else "") ++
       (match py.lookup "requirements.txt" with
        | none => ""
        | some entry => requirementsLine entry)) ++
    (if (cf.lookup "docker").isSome then "Containerized with Docker\n" else "") ++
    (if (cf.lookup "cicd").isSome then "CI/CD pipeline configured\n" else "")

/-- README truncation of `createAnalysisPrompt`:
`content.length > 2000 ? content.substring(0, 2000) + '...\n[README truncated for brevity]' : content`. -/
def truncateReadme (content : String) : String :=
  if content.length > 2000 then
    String.mk (content.data.take 2000) ++ "...\n[README truncated for brevity]"
  else content

/-- One documentation entry of the `## Project Documentation` section. -/
def renderReadmeEntry (path content : String) : String :=
  "### " ++ path ++ "\n```\n" ++ truncateReadme content ++ "\n```\n\n"

/-- The `## Project Documentation` section (omitted when no README found). -/
def readmeBlock (pi : ProjectInfo) : String :=
  if pi.README.length > 0 then
    "\n## Project Documentation\n" ++
      String.join (pi.README.map (fun e => renderReadmeEntry e.1 e.2))
  else ""

/-- Commit header lines shared by the analysis and changelog prompts. -/
def commitHeader (c : CommitData) : String :=
  "### Commit: " ++ c.hash ++ "\n" ++
  "Author: " ++ c.author_name ++ " <" ++ c.author_email ++ ">\n" ++
  "Date: " ++ c.date ++ "\n" ++
  "Message: " ++ c.message ++ "\n\n"

/-- `Modified files:` list (omitted when the commit has no file list). -/
def renderCommitFiles (files : List String) : String :=
  if files.length > 0 then
    "Modified files:\n" ++ String.join (files.map (fun f => "- " ++ f ++ "\n")) ++ "\n"
  else ""

/-- The fenced diff of one commit in `createAnalysisPrompt`:
`commit.diff.split('\n').slice(0, 5000).join('\n') + '\n... (truncated)\n'`
inside a ` ```diff ` fence, emitted only for a truthy (non-empty) diff. -/
def renderCommitDiff (diff : String) : String :=
  if !(diff == "") then
    "```diff\n" ++ jsJoinNl ((jsSplit '\n' diff).take 5000) ++
      "\n... (truncated)\n```\n\n"
  else ""

/-- One commit block of `createAnalysisPrompt`. -/
def renderCommitBlock (c : CommitData) : String :=
  commitHeader c ++ renderCommitFiles c.files ++ renderCommitDiff c.diff

/-- Trailing instruction checklist of `createAnalysisPrompt`. -/
def analysisTrailerBlock (performCodeReview : Bool) : String :=
  if performCodeReview then
    "\n  Please provide a detailed code review of the above changes. Include:\n  1. A high-level summary of what the changes do\n  2. Potential bugs, errors, or issues in the implementation\n  3. Security concerns if applicable\n  4. Architectural impact and design considerations\n  5. Suggestions for improvement\n  6. Any missing tests or documentation\n  "
  else
    "\n  Please provide a clear summary of the changes including:\n  1. What changed at a high level\n  2. Key files and components affected\n  "

/-- `createAnalysisPrompt(commits, projectInfo, projectTree, options)` from
`src/services/analysis.ts`: a pure function of its four arguments. -/
def createAnalysisPrompt (commits : List CommitData) (projectInfo : ProjectInfo)
    (projectTree : String) (options : AnalysisOptions) : String :=
  "I need you to analyze the following git commit(s) and provide a summary of changes.\n\n" ++
  analysisModeBlock options.performCodeReview ++
  "## Project Information\n" ++
  packageJsonBlock projectInfo ++
  configFilesBlock projectInfo ++
  readmeBlock projectInfo ++
  "## Project Structure\n```\n" ++ projectTree ++ "```\n\n" ++
  "## Commits to Analyze (" ++ toString commits.length ++ ")\n\n" ++
  String.join (commits.map renderCommitBlock) ++
  analysisTrailerBlock options.performCodeReview

inductive ChangelogFormat where
  | daily : ChangelogFormat
  | weekly : ChangelogFormat
deriving DecidableEq, Repr

structure ChangelogOptions where
  format : Option ChangelogFormat := none
deriving DecidableEq, Repr

def changelogFormatStr : ChangelogFormat → String
  | .daily => "daily"
  | .weekly => "weekly"

/-- `createChangelogPrompt(commits, projectInfo, options)` from
`src/services/changelog.ts`.  The source additionally reads the clock:
`const today = new Date().toISOString().slice(0, 10)` — that hidden input is
made explicit here as the `today` parameter. -/
def createChangelogPrompt (commits : List CommitData) (projectInfo : ProjectInfo)
    (options : ChangelogOptions) (today : String) : String :=
  let format := options.format.getD .weekly
  "I need you to generate a changelog entry for the following git commits.\n\n" ++
  "This changelog follows the Keep a Changelog format (https://keepachangelog.com/).\n" ++
  "The format should be '" ++ changelogFormatStr format ++ "' (" ++
    (match format with
     | .daily => "entries for each day"
     | .weekly => "weekly summary") ++ ").\n\n" ++
  "## Project Information\n" ++
  (match projectInfo.packageJson with
   | none => ""
   | some pj =>
     "Project name: " ++ jsOrOpt pj.name "Unknown" ++ "\n" ++
     "Version: " ++ jsOrOpt pj.version "0.1.0" ++ "\n" ++
     "Description: " ++ jsOrOpt pj.description "N/A" ++ "\n") ++
  (match projectInfo.configFiles with
   | none => ""
   | some cf =>
     let technologies := cf.map Prod.fst
     (if technologies.length > 0 then
       "Technologies: " ++ String.intercalate ", " technologies ++ "\n"
      else "") ++
     (if (cf.lookup "python").isSome then
       "Python project with relevant dependencies and configuration\n"
      else "") ++
     (if (cf.lookup "docker").isSome then
       "Containerized application with Docker\n"
      else "") ++
     (if (cf.lookup "cicd").isSome then
       "CI/CD pipeline configured for automated deployment/testing\n"
      else "")) ++
  "\n## Commits to Include in Changelog (" ++ toString commits.length ++ ")\n\n" ++
  String.join (commits.map (fun c => commitHeader c ++ renderCommitFiles c.files)) ++
  "\nPlease generate a changelog entry with the following format:\n\n## [" ++
    (match projectInfo.packageJson with
     | none => "0.1.0"
     | some pj => jsOrOpt pj.version "0.1.0") ++
    "] - " ++ today ++
    "\n\n### Added\n- New features or additions\n\n### Changed\n- Changes to existing functionality\n\n### Fixed\n- Bug fixes\n\n### Removed\n- Features or functionality that has been removed\n\nOnly include sections that are relevant. Group similar changes together and write clear, concise descriptions.\n"

/-! ## ProviderGateway: `src/utils/llm_utils.ts`

Credential lookups (`getOpenAIApiKey` / `getAnthropicApiKey`, environment or
persisted config) are external inputs here: `getLLMProvider` receives their
resolved results.  An absent key is `none`; the source tests them with
JavaScript truthiness (`if (openaiKey)` / `if (!anthropicKey)`).
Network responses are supplied by oracles so the whole call becomes a pure
function; what the gateway *sends* is reified as a request value. -/

inductive LLMRole where
  | system : LLMRole
  | user : LLMRole
  | assistant : LLMRole
deriving DecidableEq, Repr

structure LLMMessage where
  role : LLMRole
  content : String
deriving DecidableEq, Repr

structure LLMInferenceOptions where
  model : Option String := none
  maxTokens : Option Nat := none
  temperature : Option Rat := none
  systemMessage : Option String := none
deriving DecidableEq, Repr

inductive ProviderTag where
  | openai : ProviderTag
  | anthropic : ProviderTag
deriving DecidableEq, Repr

/-- `LLMProvider`: the discriminant plus the client key (OpenAI variant) or
the raw API key (Anthropic variant). -/
structure LLMProvider where
  provider : ProviderTag
  clientKey : Option String := none
  apiKey : Option String := none
deriving DecidableEq, Repr

/-- The error message thrown when no credential source is available. -/
def noApiKeyMsg : String := "No API key found. Please set up an API key to continue."

/-- `getLLMProvider()`: OpenAI preferred, fallback to Anthropic, error when
both credential sources are absent (falsy). -/
def getLLMProvider (openaiKey anthropicKey : Option String) : Except String LLMProvider :=
  if jsTruthyOpt openaiKey then
    .ok { provider := .openai, clientKey := openaiKey }
  else if !(jsTruthyOpt anthropicKey) then
    .error noApiKeyMsg
  else
    .ok { provider := .anthropic, apiKey := anthropicKey }

/-- The body of `provider.client.chat.completions.create({...})`. -/
structure OpenAIRequest where
  model : String
  messages : List LLMMessage
  temperature : Rat
  max_tokens : Nat
deriving DecidableEq, Repr

/-- The JSON body POSTed to the Anthropic messages endpoint. -/
structure AnthropicRequest where
  model : String
  max_tokens : Nat
  temperature : Rat
  system : String
  messages : List LLMMessage
deriving DecidableEq, Repr

/-- OpenAI-variant request assembly (`performLLMInference`, OpenAI branch):
optional system message prepended when none present, model defaulted, and
`max_tokens: Math.min(maxTokens, 5000)` with `maxTokens` defaulting
to 20000. -/
def buildOpenAIRequest (messages : List LLMMessage) (options : LLMInferenceOptions) :
    OpenAIRequest :=
  let maxTokens := options.maxTokens.getD 20000
  let temperature := options.temperature.getD (2 / 10 : Rat)
  let openaiMessages :=
    (if jsTruthyOpt options.systemMessage &&
        !(messages.any (fun m => m.role == .system)) then
      [{ role := .system, content := options.systemMessage.getD "" : LLMMessage }]
     else []) ++ messages
  { model := jsOrOpt options.model "gpt-4o-mini"
    messages := openaiMessages
    temperature := temperature
    max_tokens := Nat.min maxTokens 5000 }

/-- Anthropic-variant request assembly (`performLLMInference`, Anthropic
branch): system-role entries split off and merged into the `system` field,
model defaulted, and `max_tokens: Math.min(maxTokens, 4096)` with
`maxTokens` defaulting to 20000. -/
def buildAnthropicRequest (messages : List LLMMessage) (options : LLMInferenceOptions) :
    AnthropicRequest :=
  let maxTokens := options.maxTokens.getD 20000
  let temperature := options.temperature.getD (2 / 10 : Rat)
  let userMessages := messages.filter (fun m => !(m.role == .system))
  let systemMessages := messages.filter (fun m => m.role == .system)
  let finalSystemMessage :=
    jsOrS (jsOrOpt options.systemMessage
            (String.intercalate "\n" (systemMessages.map (fun m => m.content))))
      "You are a helpful assistant."
  { model := jsOrOpt options.model "claude-3-haiku-20240307"
    max_tokens := Nat.min maxTokens 4096
    temperature := temperature
    system := finalSystemMessage
    messages := userMessages.map (fun m =>
      { role := if m.role == .system then .user else m.role, content := m.content }) }

/-- A request as actually dispatched to the selected backend. -/
inductive DispatchedRequest where
  | openaiReq : OpenAIRequest → DispatchedRequest
  | anthropicReq : AnthropicRequest → DispatchedRequest
deriving DecidableEq, Repr

/-- `performLLMInference` up to the point of transmission: which request (if
any) is sent.  An `error` result means the call rejects before any network
request is issued. -/
def performLLMDispatch (messages : List LLMMessage) (options : LLMInferenceOptions)
    (openaiKey anthropicKey : Option String) : Except String DispatchedRequest :=
  match getLLMProvider openaiKey anthropicKey with
  | .error e => .error e
  | .ok prov =>
    match prov.provider with
    | .openai =>
      match prov.clientKey with
      | none => .error "OpenAI client not initialized"
      | some _ => .ok (.openaiReq (buildOpenAIRequest messages options))
    | .anthropic =>
      match prov.apiKey with
      | none => .error "Anthropic API key not available"
      | some _ => .ok (.anthropicReq (buildAnthropicRequest messages options))

/-- `response.choices[0]?.message?.content` with both optional hops. -/
structure OpenAIChoiceMessage where
  content : Option String := none
deriving DecidableEq, Repr

structure OpenAIChoice where
  message : Option OpenAIChoiceMessage := none
deriving DecidableEq, Repr

structure OpenAIResponse where
  choices : List OpenAIChoice := []
deriving DecidableEq, Repr

/-- `data.content?.[0]?.text` with both optional hops. -/
structure AnthropicContentBlock where
  text : Option String := none
deriving DecidableEq, Repr

structure AnthropicResponse where
  content : Option (List AnthropicContentBlock) := none
deriving DecidableEq, Repr

/-- The text path of an OpenAI-variant response. -/
def openaiTextPath (r : OpenAIResponse) : Option String :=
  (r.choices.head?.bind (fun c => c.message)).bind (fun m => m.content)

/-- The text path of an Anthropic-variant response. -/
def anthropicTextPath (r : AnthropicResponse) : Option String :=
  (r.content.bind List.head?).bind (fun b => b.text)

/-- `return response.choices[0]?.message?.content || 'No response available';`. -/
def extractOpenAIText (r : OpenAIResponse) : String :=
  jsOrOpt (openaiTextPath r) "No response available"

/-- `return (data as any).content?.[0]?.text || 'No response available';`. -/
def extractAnthropicText (r : AnthropicResponse) : String :=
  jsOrOpt (anthropicTextPath r) "No response available"

/-- Outcome of the raw `fetch` to the Anthropic endpoint: a non-success
status (with `statusText` and body text) or a parsed JSON payload. -/
inductive AnthropicHttpResult where
  | failure : String → String → AnthropicHttpResult
  | success : AnthropicResponse → AnthropicHttpResult

/-- `performLLMInference(messages, options)` end to end.  The two network
round-trips are oracles mapping the dispatched request to a response; the
OpenAI client library surfaces transport failures as thrown exceptions
outside this model, so its oracle returns a parsed response. -/
def performLLMInference (messages : List LLMMessage) (options : LLMInferenceOptions)
    (openaiKey anthropicKey : Option String)
    (openaiFetch : OpenAIRequest → OpenAIResponse)
    (anthropicFetch : AnthropicRequest → AnthropicHttpResult) : Except String String :=
  match getLLMProvider openaiKey anthropicKey with
  | .error e => .error e
  | .ok prov =>
    match prov.provider with
    | .openai =>
      match prov.clientKey with
      | none => .error "OpenAI client not initialized"
      | some _ => .ok (extractOpenAIText (openaiFetch (buildOpenAIRequest messages options)))
    | .anthropic =>
      match prov.apiKey with
      | none => .error "Anthropic API key not available"
      | some _ =>
        match anthropicFetch (buildAnthropicRequest messages options) with
        | .failure statusText body =>
          .error ("Anthropic API error: " ++ statusText ++ " - " ++ body)
        | .success data => .ok (extractAnthropicText data)

/-- `invoke_llm(prompt, systemMessage, options)`: convenience wrapper that
submits a single user message through `performLLMInference`. -/
def invoke_llm (prompt : String) (systemMessage : Option String)
    (options : LLMInferenceOptions) (openaiKey anthropicKey : Option String)
    (openaiFetch : OpenAIRequest → OpenAIResponse)
    (anthropicFetch : AnthropicRequest → AnthropicHttpResult) : Except String String :=
  performLLMInference [{ role := .user, content := prompt }]
    { options with systemMessage := systemMessage }
    openaiKey anthropicKey openaiFetch anthropicFetch


/-! ## String lemmas -/

theorem splitOnChar_ne_nil (sep : Char) (cs : List Char) : splitOnChar sep cs ≠ [] := by
  induction cs with
  | nil => simp [splitOnChar]
  | cons c rest ih =>
    simp only [splitOnChar]
    rcases h : splitOnChar sep rest with _ | ⟨l, ls⟩
    · exact absurd h ih
    · show (if c = sep then [] :: l :: ls else (c :: l) :: ls) ≠ []
      by_cases hc : c = sep <;> simp [hc]

theorem mem_splitOnChar_not_sep (sep : Char) (cs : List Char) :
    ∀ l ∈ splitOnChar sep cs, sep ∉ l := by
  induction cs with
  | nil =>
    intro l hl
    simp [splitOnChar] at hl
    simp [hl]
  | cons c rest ih =>
    intro l hl
    simp only [splitOnChar] at hl
    rcases h : splitOnChar sep rest with _ | ⟨p, ps⟩
    · exact absurd h (splitOnChar_ne_nil sep rest)
    · rw [h] at hl
      replace hl : l ∈ (if c = sep then [] :: p :: ps else (c :: p) :: ps) := hl
      by_cases hc : c = sep
      · rw [if_pos hc] at hl
        rcases List.mem_cons.mp hl with rfl | hl
        · simp
        · exact ih l (by rw [h]; exact hl)
      · rw [if_neg hc] at hl
        rcases List.mem_cons.mp hl with rfl | hl
        · intro hmem
          rcases List.mem_cons.mp hmem with heq | hmem
          · exact hc heq.symm
          · exact ih p (by rw [h]; exact List.mem_cons_self p ps) hmem
        · exact ih l (by rw [h]; exact List.mem_cons_of_mem p hl)

theorem splitOnChar_no_sep (sep : Char) (l : List Char) (h : sep ∉ l) :
    splitOnChar sep l = [l] := by
  induction l with
  | nil => simp [splitOnChar]
  | cons c rest ih =>
    have hc : c ≠ sep := fun hc => h (hc ▸ List.mem_cons_self c rest)
    have hrest : sep ∉ rest := fun hm => h (List.mem_cons_of_mem c hm)
    simp only [splitOnChar, ih hrest]
    simp [hc]

theorem splitOnChar_append_sep (sep : Char) (l t : List Char) (h : sep ∉ l) :
    splitOnChar sep (l ++ sep :: t) = l :: splitOnChar sep t := by
  induction l with
  | nil =>
    simp only [List.nil_append, splitOnChar]
    rcases ht : splitOnChar sep t with _ | ⟨p, ps⟩
    · exact absurd ht (splitOnChar_ne_nil sep t)
    · simp
  | cons c rest ih =>
    have hc : c ≠ sep := fun hc => h (hc ▸ List.mem_cons_self c rest)
    have hrest : sep ∉ rest := fun hm => h (List.mem_cons_of_mem c hm)
    rw [List.cons_append]
    simp only [splitOnChar]
    rw [ih hrest]
    simp [hc]

theorem splitOnChar_joinChar (sep : Char) (L : List (List Char)) (hne : L ≠ [])
    (h : ∀ l ∈ L, sep ∉ l) : splitOnChar sep (joinChar sep L) = L := by
  induction L with
  | nil => exact absurd rfl hne
  | cons l ls ih =>
    cases ls with
    | nil =>
      simp only [joinChar]
      exact splitOnChar_no_sep sep l (h l (List.mem_cons_self l []))
    | cons l2 ls2 =>
      have hstep : joinChar sep (l :: l2 :: ls2) = l ++ sep :: joinChar sep (l2 :: ls2) := rfl
      rw [hstep, splitOnChar_append_sep sep l _ (h l (List.mem_cons_self l _))]
      rw [ih (by simp) (fun x hx => h x (List.mem_cons_of_mem l hx))]

theorem joinChar_splitOnChar (sep : Char) (cs : List Char) :
    joinChar sep (splitOnChar sep cs) = cs := by
  induction cs with
  | nil => simp [splitOnChar, joinChar]
  | cons c rest ih =>
    simp only [splitOnChar]
    rcases h : splitOnChar sep rest with _ | ⟨p, ps⟩
    · exact absurd h (splitOnChar_ne_nil sep rest)
    · rw [h] at ih
      show joinChar sep (if c = sep then [] :: p :: ps else (c :: p) :: ps) = c :: rest
      by_cases hc : c = sep
      · rw [if_pos hc]
        have hstep : joinChar sep ([] :: p :: ps) = [] ++ sep :: joinChar sep (p :: ps) := rfl
        rw [hstep, ih, hc]
        simp
      · rw [if_neg hc]
        cases ps with
        | nil =>
          simp only [joinChar] at ih ⊢
          rw [ih]
        | cons q qs =>
          have h1 : joinChar sep ((c :: p) :: q :: qs) = (c :: p) ++ sep :: joinChar sep (q :: qs) := rfl
          have h2 : joinChar sep (p :: q :: qs) = p ++ sep :: joinChar sep (q :: qs) := rfl
          rw [h1]
          rw [h2] at ih
          rw [List.cons_append, ih]

theorem jsJoinNl_jsSplit (s : String) : jsJoinNl (jsSplit '\n' s) = s := by
  simp only [jsJoinNl, jsSplit, List.map_map]
  have : (String.data ∘ String.mk) = id := by
    funext l
    rfl
  rw [this, List.map_id, joinChar_splitOnChar]

theorem jsSplit_jsJoinNl (L : List String) (hne : L ≠ [])
    (h : ∀ s ∈ L, '\n' ∉ s.data) : jsSplit '\n' (jsJoinNl L) = L := by
  simp only [jsSplit, jsJoinNl]
  rw [splitOnChar_joinChar '\n' (L.map String.data)
    (by simpa using hne)
    (by intro l hl
        rcases List.mem_map.mp hl with ⟨s, hs, rfl⟩
        exact h s hs)]
  simp only [List.map_map]
  have : (String.mk ∘ String.data) = id := by
    funext s
    rfl
  rw [this, List.map_id]

theorem mem_jsSplit_no_newline (s : String) :
    ∀ p ∈ jsSplit '\n' s, '\n' ∉ p.data := by
  intro p hp
  rcases List.mem_map.mp hp with ⟨l, hl, rfl⟩
  exact mem_splitOnChar_not_sep '\n' s.data l hl

theorem consVal_ok (P : String → Prop) (k : String) (v : JVal) (rest : JEnt)
    (hk : P k) (hv : valOK P v) (hr : entriesOK P rest) :
    entriesOK P (JEnt.consVal k v rest) := by
  cases v with
  | none => exact ⟨hk, hr⟩
  | some c => exact ⟨hk, hv, hr⟩

theorem setKey_ok (P : String → Prop) (m : JEnt) (k : String) (v : JVal)
    (hm : entriesOK P m) (hk : P k) (hv : valOK P v) : entriesOK P (setKey m k v) := by
  induction m with
  | nil => exact consVal_ok P k v .nil hk hv trivial
  | consFile k' rest ih =>
    obtain ⟨h1, h2⟩ := hm
    simp only [setKey]
    by_cases he : k' = k
    · rw [if_pos he]
      exact consVal_ok P k v rest hk hv h2
    · rw [if_neg he]
      exact ⟨h1, ih h2⟩
  | consDir k' c rest ihc ih =>
    obtain ⟨h1, h2, h3⟩ := hm
    simp only [setKey]
    by_cases he : k' = k
    · rw [if_pos he]
      exact consVal_ok P k v rest hk hv h3
    · rw [if_neg he]
      exact ⟨h1, h2, ih h3⟩

theorem getKey_ok (P : String → Prop) (m : JEnt) (key : String) (v : JVal)
    (hm : entriesOK P m) (h : getKey m key = some v) : valOK P v := by
  induction m with
  | nil => simp [getKey] at h
  | consFile k' rest ih =>
    obtain ⟨_, h2⟩ := hm
    simp only [getKey] at h
    by_cases he : k' = key
    · rw [if_pos he] at h
      injection h with h
      subst h
      trivial
    · rw [if_neg he] at h
      exact ih h2 h
  | consDir k' c rest ihc ih =>
    obtain ⟨_, h2, h3⟩ := hm
    simp only [getKey] at h
    by_cases he : k' = key
    · rw [if_pos he] at h
      injection h with h
      subst h
      exact h2
    · rw [if_neg he] at h
      exact ih h3 h

theorem childFor_ok (P : String → Prop) (m : JEnt) (p : String)
    (hm : entriesOK P m) : entriesOK P (childFor m p) := by
  unfold childFor
  rcases h : getKey m p with _ | v
  · trivial
  · cases v with
    | none => trivial
    | some c => exact getKey_ok P m p (some c) hm h

theorem insertLoop_ok (P : String → Prop) (parts : List String) :
    ∀ (m : JEnt) (budget : Nat), entriesOK P m → (∀ p ∈ parts, P p) →
      entriesOK P (insertLoop m parts budget) := by
  induction parts with
  | nil =>
    intro m budget hm _
    cases budget <;> exact hm
  | cons p rest ih =>
    intro m budget hm hp
    cases budget with
    | zero => exact hm
    | succ b =>
      cases rest with
      | nil =>
        exact setKey_ok P m p none hm (hp p (List.mem_cons_self p [])) trivial
      | cons q qs =>
        refine setKey_ok P m p _ hm (hp p (List.mem_cons_self p _)) ?_
        show valOK P (some (insertLoop (childFor m p) (q :: qs) b))
        exact ih (childFor m p) b (childFor_ok P m p hm)
          (fun x hx => hp x (List.mem_cons_of_mem p hx))

theorem buildTree_ok (P : String → Prop) (files : List String) (maxDepth : Nat)
    (h : ∀ f ∈ files, ∀ part ∈ jsSplit '/' f, P part) :
    entriesOK P (buildTree files maxDepth) := by
  unfold buildTree
  have hgen : ∀ (fs : List String) (t : JEnt), entriesOK P t →
      (∀ f ∈ fs, ∀ part ∈ jsSplit '/' f, P part) →
      entriesOK P (fs.foldl
        (fun t f =>
          let parts := jsSplit '/' f
          insertLoop t parts (Nat.min parts.length maxDepth)) t) := by
    intro fs
    induction fs with
    | nil =>
      intro t ht _
      exact ht
    | cons f fs ihf =>
      intro t ht hfs
      simp only [List.foldl_cons]
      exact ihf _
        (insertLoop_ok P (jsSplit '/' f) t _ ht (hfs f (List.mem_cons_self f fs)))
        (fun x hx => hfs x (List.mem_cons_of_mem f hx))
  exact hgen files .nil trivial h

theorem epath_ok (P : String → Prop) (es : JEnt) (path : List String)
    (hp : EPath es path) (he : entriesOK P es) : ∀ c ∈ path, P c := by
  induction hp with
  | headFile k rest =>
    intro c hc
    rcases List.mem_cons.mp hc with rfl | hc
    · exact he.1
    · simp at hc
  | headDir k ch rest =>
    intro c hc
    rcases List.mem_cons.mp hc with rfl | hc
    · exact he.1
    · simp at hc
  | child k ch rest p _ ih =>
    intro c hc
    rcases List.mem_cons.mp hc with rfl | hc
    · exact he.1
    · exact ih he.2.1 c hc
  | tailFile k rest p _ ih =>
    intro c hc
    exact ih he.2 c hc
  | tailDir k ch rest p _ ih =>
    intro c hc
    exact ih he.2.2 c hc

/-! ## Supporting lemmas -/

theorem isDateAt_take (l dl : List Char) (h : isDateAt l = some dl) : l.take 10 = dl := by
  unfold isDateAt at h
  split at h
  next a b c d e f g h8 i j heq =>
    split at h
    · injection h with h
      exact heq.trans h
    · exact absurd h (by simp)
  next => exact absurd h (by simp)

theorem take_drop_infix {α : Type} (cs : List α) (i n : Nat) :
    (cs.drop i).take n <:+: cs := by
  refine ⟨cs.take i, (cs.drop i).drop n, ?_⟩
  rw [List.append_assoc, List.take_append_drop, List.take_append_drop]

theorem findFirstDate_first (cs : List Char) (d : String) (h : findFirstDate cs = some d) :
    ∃ i, isDateAt (cs.drop i) = some d.data ∧ ∀ j < i, isDateAt (cs.drop j) = none := by
  induction cs with
  | nil => simp [findFirstDate] at h
  | cons c rest ih =>
    simp only [findFirstDate] at h
    rcases hm : isDateAt (c :: rest) with _ | dl
    · rw [hm] at h
      replace h : findFirstDate rest = some d := h
      obtain ⟨i, h1, h2⟩ := ih h
      refine ⟨i + 1, ?_, ?_⟩
      · rw [List.drop_succ_cons]
        exact h1
      · intro j hj
        cases j with
        | zero => simpa using hm
        | succ k =>
          rw [List.drop_succ_cons]
          exact h2 k (Nat.lt_of_succ_lt_succ hj)
    · rw [hm] at h
      replace h : some (String.mk dl) = some d := h
      injection h with h
      refine ⟨0, ?_, fun j hj => absurd hj (Nat.not_lt_zero j)⟩
      rw [List.drop_zero, hm, ← h]

theorem findFirstDate_infix (cs : List Char) (d : String) (h : findFirstDate cs = some d) :
    d.data <:+: cs := by
  obtain ⟨i, h1, _⟩ := findFirstDate_first cs d h
  have := isDateAt_take _ _ h1
  rw [← this]
  exact take_drop_infix cs i 10

/-! ## Claim C1 -/

/-- **C1** (amended): every commit processed by `getLastCommits`,
`getCommitsFromLastDays` or `getCommitsSinceLastChangelog` has a diff with
no line containing the substring `lock`, and a files list with no path
matching the code's pattern `/.*lock.*\..*/` (a `lock` followed — possibly
later — by a period).  Paths such as `a.lock` or `yarn.lock`, where no
period follows `lock`, do NOT match that pattern and are kept. -/
theorem processCommit_lock_filtering (commit : CommitData) (diff filesResult : String) :
    (∀ l ∈ jsSplit '\n' (processCommit commit diff filesResult).diff,
        strIncludes l "lock" = false) ∧
    (∀ f ∈ (processCommit commit diff filesResult).files,
        matchesLockPattern f = false) := by
  have hempty : ∀ l ∈ jsSplit '\n' ("" : String), strIncludes l "lock" = false := by
    intro l hl
    have h0 : jsSplit '\n' ("" : String) = [""] := by decide
    rw [h0] at hl
    rw [List.mem_singleton.mp hl]
    decide
  constructor
  · intro l hl
    by_cases hb : strIncludes diff "Binary files" = true
    · have hd : (processCommit commit diff filesResult).diff = "" := by
        simp [processCommit, hb]
      rw [hd] at hl
      exact hempty l hl
    · have hd : (processCommit commit diff filesResult).diff = filterDiffLines diff := by
        simp only [Bool.not_eq_true] at hb
        simp [processCommit, hb]
      rw [hd] at hl
      unfold filterDiffLines at hl
      rcases hLe : (jsSplit '\n' diff).filter (fun l => !(strIncludes l "lock")) with _ | ⟨x, xs⟩
      · rw [hLe] at hl
        have h0 : jsJoinNl [] = "" := by decide
        rw [h0] at hl
        exact hempty l hl
      · rw [hLe] at hl
        rw [jsSplit_jsJoinNl (x :: xs) (by simp) ?hnl] at hl
        case hnl =>
          intro s hs
          have hs' : s ∈ (jsSplit '\n' diff).filter (fun l => !(strIncludes l "lock")) := by
            rw [hLe]
            exact hs
          exact mem_jsSplit_no_newline diff s (List.mem_filter.mp hs').1
        have hl' : l ∈ (jsSplit '\n' diff).filter (fun l => !(strIncludes l "lock")) := by
          rw [hLe]
          exact hl
        have := (List.mem_filter.mp hl').2
        simpa using this
  · intro f hf
    have hfi : (processCommit commit diff filesResult).files =
        lockFileFilter (rawFilesOf filesResult) := by
      by_cases hb : strIncludes diff "Binary files" = true
      · simp [processCommit, hb]
      · simp only [Bool.not_eq_true] at hb
        simp [processCommit, hb]
    rw [hfi] at hf
    unfold lockFileFilter at hf
    have := (List.mem_filter.mp hf).2
    simpa using this

/-- Witness for C1: the theorem applied to the scenario commit — diff line
`+ real change` survives the filter and contains no `lock`; `a.ts` is kept
and matches no lock pattern. -/
theorem processCommit_lock_filtering_witness :
    strIncludes "+ real change" "lock" = false ∧ matchesLockPattern "a.ts" = false := by
  have h := processCommit_lock_filtering
    { hash := "abc123", author_name := "Dev", author_email := "dev@example.com",
      date := "2024-01-01", message := "fix: null check" }
    "+ real change\n+ dependency.lock update" "a.ts\na.lock"
  exact ⟨h.1 "+ real change" (by decide), h.2 "a.ts" (by decide)⟩

/-- **C1** (counterexample): the spec scenario says the files list omits
`a.lock` and keeps `a.ts`; the code's pattern `/.*lock.*\..*/` requires a
period *after* `lock`, so `a.lock` does not match and is kept. -/
theorem processCommit_keeps_a_lock :
    (processCommit
      { hash := "abc123", author_name := "Dev", author_email := "dev@example.com",
        date := "2024-01-01", message := "fix: null check" }
      "+ fix\n+ dependency.lock update" "a.ts\na.lock").files = ["a.ts", "a.lock"] := by
  decide

/-! ## Claim C5 -/

/-- **C5**: a raw diff containing the marker `Binary files` yields an empty
diff while the files list is still the lock-filtered name-only listing;
without the marker the commit keeps its lock-line-filtered diff. -/
theorem processCommit_binary_diff (commit : CommitData) (diff filesResult : String) :
    (strIncludes diff "Binary files" = true →
      (processCommit commit diff filesResult).diff = "" ∧
      (processCommit commit diff filesResult).files =
        lockFileFilter (rawFilesOf filesResult)) ∧
    (strIncludes diff "Binary files" = false →
      (processCommit commit diff filesResult).diff = filterDiffLines diff ∧
      (processCommit commit diff filesResult).files =
        lockFileFilter (rawFilesOf filesResult)) := by
  constructor <;> intro hb <;> constructor <;> simp [processCommit, hb]

/-- Witness for C5: a binary diff gives an empty diff and the filtered file
list; a textual diff keeps its filtered lines. -/
theorem processCommit_binary_diff_witness :
    (processCommit
      { hash := "abc123", author_name := "Dev", author_email := "dev@example.com",
        date := "2024-01-01", message := "add image" }
      "diff --git a/x.png b/x.png\nBinary files a/x.png and b/x.png differ"
      "x.png").diff = "" ∧
    (processCommit
      { hash := "abc124", author_name := "Dev", author_email := "dev@example.com",
        date := "2024-01-02", message := "edit" }
      "+ plain edit" "x.ts").diff = filterDiffLines "+ plain edit" := by
  constructor
  · exact ((processCommit_binary_diff _ _ "x.png").1 (by decide)).1
  · exact ((processCommit_binary_diff _ "+ plain edit" "x.ts").2 (by decide)).1

/-! ## Claim C8 -/

/-- **C8**: `getCommitsSinceLastChangelog` resolves its since-date to the
first `\d{4}-\d{2}-\d{2}` occurrence in the changelog content when present
(the match is at the leftmost position where the fixed-width pattern fits,
and the matched text occurs in the content), and otherwise — no changelog
or no date in it — to the date 30 days before the current date. -/
theorem resolveSinceDate_spec (content : String) (today : Nat) :
    (∀ d, findFirstDate content.data = some d →
      resolveSinceDate (some content) today = d ∧
      d.data <:+: content.data ∧
      (∃ i, isDateAt (content.data.drop i) = some d.data ∧
        ∀ j < i, isDateAt (content.data.drop j) = none)) ∧
    (findFirstDate content.data = none →
      resolveSinceDate (some content) today = isoOfEpochDays (today - 30)) ∧
    resolveSinceDate none today = isoOfEpochDays (today - 30) := by
  refine ⟨?_, ?_, rfl⟩
  · intro d h
    refine ⟨?_, findFirstDate_infix content.data d h, findFirstDate_first content.data d h⟩
    simp [resolveSinceDate, h]
  · intro h
    simp [resolveSinceDate, h]

/-- Witness for C8: the spec scenario — a changelog whose first line contains
`2024-01-01` resolves to `2024-01-01` for any current date, not to the
30-day default (shown for a sample current day). -/
theorem resolveSinceDate_spec_witness :
    resolveSinceDate (some "## [1.0.0] - 2024-01-01\n- initial release") 20000 =
      "2024-01-01" ∧
    resolveSinceDate (some "no date here") 20000 = isoOfEpochDays (20000 - 30) ∧
    "2024-01-01" ≠ isoOfEpochDays (20000 - 30) := by
  refine ⟨?_, ?_, by decide⟩
  · exact ((resolveSinceDate_spec "## [1.0.0] - 2024-01-01\n- initial release" 20000).1
      "2024-01-01" (by decide)).1
  · exact (resolveSinceDate_spec "no date here" 20000).2.1 (by decide)

theorem strAppend_assoc (a b c : String) : a ++ b ++ c = a ++ (b ++ c) := by
  rcases a with ⟨la⟩
  rcases b with ⟨lb⟩
  rcases c with ⟨lc⟩
  show String.mk (la ++ lb ++ lc) = String.mk (la ++ (lb ++ lc))
  rw [List.append_assoc]

theorem strEmpty_append (s : String) : "" ++ s = s := by
  rcases s with ⟨l⟩
  rfl

theorem strJoin_singleton (s : String) : String.join [s] = s := by
  show "" ++ s = s
  exact strEmpty_append s

/-! ## Claim C6 -/

/-- **C6**: in the prompt assembled by `createAnalysisPrompt`, a
documentation entry longer than 2000 characters is rendered as its first
2000 characters followed by the single truncation marker
`...\n[README truncated for brevity]`, and an entry at or below 2000
characters is rendered verbatim with no marker appended; the documentation
section of the prompt is built from exactly these renderings. -/
theorem readme_truncation (p c : String) :
    (c.length > 2000 →
      renderReadmeEntry p c =
        "### " ++ p ++ "\n```\n" ++ String.mk (c.data.take 2000) ++
          "...\n[README truncated for brevity]" ++ "\n```\n\n") ∧
    (c.length ≤ 2000 →
      renderReadmeEntry p c = "### " ++ p ++ "\n```\n" ++ c ++ "\n```\n\n") ∧
    (∀ commits pi tree opts, pi.README = [(p, c)] →
      ∃ pre post, createAnalysisPrompt commits pi tree opts =
        pre ++ renderReadmeEntry p c ++ post) := by
  refine ⟨?_, ?_, ?_⟩
  · intro h
    unfold renderReadmeEntry truncateReadme
    rw [if_pos h]
    simp [strAppend_assoc]
  · intro h
    unfold renderReadmeEntry truncateReadme
    rw [if_neg (by omega)]
  · intro commits pi tree opts hR
    refine ⟨"I need you to analyze the following git commit(s) and provide a summary of changes.\n\n" ++
        analysisModeBlock opts.performCodeReview ++
        "## Project Information\n" ++ packageJsonBlock pi ++ configFilesBlock pi ++
        "\n## Project Documentation\n",
      "## Project Structure\n```\n" ++ tree ++ "```\n\n" ++
        "## Commits to Analyze (" ++ toString commits.length ++ ")\n\n" ++
        String.join (commits.map renderCommitBlock) ++
        analysisTrailerBlock opts.performCodeReview, ?_⟩
    unfold createAnalysisPrompt readmeBlock
    rw [hR]
    simp [strJoin_singleton, strAppend_assoc]

/-- Witness for C6: a 2500-character entry is cut at 2000 characters with
the marker appended; a short entry is rendered verbatim. -/
theorem readme_truncation_witness :
    renderReadmeEntry "README.md" (String.mk (List.replicate 2500 'A')) =
      "### " ++ "README.md" ++ "\n```\n" ++
        String.mk ((String.mk (List.replicate 2500 'A')).data.take 2000) ++
        "...\n[README truncated for brevity]" ++ "\n```\n\n" ∧
    renderReadmeEntry "README.md" "short" =
      "### " ++ "README.md" ++ "\n```\n" ++ "short" ++ "\n```\n\n" := by
  constructor
  · exact (readme_truncation "README.md" _).1
      (by rw [String.mk_length, List.length_replicate]; omega)
  · exact (readme_truncation "README.md" "short").2.1 (by decide)

/-! ## Claim C9 -/

/-- **C9** (counterexample): the changelog prompt builder reads the clock
(`new Date().toISOString().slice(0, 10)`) inside the function; with the
hidden clock input made explicit, two calls with identical `commits`,
`projectInfo` and `options` on different days produce different prompts. -/
theorem createChangelogPrompt_clock_dependent :
    createChangelogPrompt [] ({} : ProjectInfo) ({} : ChangelogOptions) "2024-01-01" ≠
      createChangelogPrompt [] ({} : ProjectInfo) ({} : ChangelogOptions) "2024-01-02" := by
  decide

/-- **C9** (amended): `createAnalysisPrompt` is deterministic — it is a pure
function of its four arguments (commits, projectInfo, projectTree, options)
with no hidden clock, randomness or I/O input, so identical arguments give
byte-identical prompts.  `createChangelogPrompt` is deterministic only once
the internally-read current date is also fixed. -/
theorem createAnalysisPrompt_deterministic (c₁ c₂ : List CommitData)
    (p₁ p₂ : ProjectInfo) (t₁ t₂ : String) (o₁ o₂ : AnalysisOptions)
    (hc : c₁ = c₂) (hp : p₁ = p₂) (ht : t₁ = t₂) (ho : o₁ = o₂) :
    createAnalysisPrompt c₁ p₁ t₁ o₁ = createAnalysisPrompt c₂ p₂ t₂ o₂ := by
  subst hc
  subst hp
  subst ht
  subst ho
  rfl

/-- Witness for C9: determinism at a concrete argument tuple. -/
theorem createAnalysisPrompt_deterministic_witness :
    createAnalysisPrompt [] ({} : ProjectInfo) "" { performCodeReview := false } =
      createAnalysisPrompt [] ({} : ProjectInfo) "" { performCodeReview := false } :=
  createAnalysisPrompt_deterministic [] [] {} {} "" "" _ _ rfl rfl rfl rfl

/-! ## Claim C10 -/

/-- **C10**: in `createAnalysisPrompt`, a commit with a non-empty diff is
rendered with a fenced diff block holding the first 5000 lines of the diff
followed by the marker `... (truncated)`; the marker is appended
unconditionally, so a diff of at most 5000 lines appears in full and still
carries the marker. -/
theorem createAnalysisPrompt_diff_truncation (c : CommitData) (h : c.diff ≠ "") :
    renderCommitBlock c =
      commitHeader c ++ renderCommitFiles c.files ++ renderCommitDiff c.diff ∧
    renderCommitDiff c.diff =
      "```diff\n" ++ jsJoinNl ((jsSplit '\n' c.diff).take 5000) ++
        "\n... (truncated)\n```\n\n" ∧
    ((jsSplit '\n' c.diff).length ≤ 5000 →
      renderCommitDiff c.diff =
        "```diff\n" ++ c.diff ++ "\n... (truncated)\n```\n\n") := by
  have hne : (c.diff == "") = false := by
    rw [beq_eq_false_iff_ne]
    exact h
  refine ⟨rfl, ?_, ?_⟩
  · unfold renderCommitDiff
    rw [hne]
    simp
  · intro hlen
    unfold renderCommitDiff
    rw [hne]
    simp only [Bool.not_false, if_true]
    rw [List.take_of_length_le hlen, jsJoinNl_jsSplit]

/-- Witness for C10: a one-line diff is rendered in full and still carries
the truncation marker. -/
theorem createAnalysisPrompt_diff_truncation_witness :
    renderCommitDiff "+ one line" =
      "```diff\n" ++ "+ one line" ++ "\n... (truncated)\n```\n\n" := by
  have h := createAnalysisPrompt_diff_truncation
    { hash := "abc125", author_name := "Dev", author_email := "dev@example.com",
      date := "2024-01-03", message := "edit", diff := "+ one line" } (by decide)
  exact h.2.2 (by decide)

/-! ## Gateway lemmas -/

theorem jsTruthyOpt_some (o : Option String) (h : jsTruthyOpt o = true) :
    ∃ s, o = some s := by
  cases o with
  | none => simp [jsTruthyOpt] at h
  | some s => exact ⟨s, rfl⟩

theorem getLLMProvider_openai_of_truthy (ok ak : Option String)
    (h : jsTruthyOpt ok = true) :
    getLLMProvider ok ak = .ok { provider := .openai, clientKey := ok } := by
  simp [getLLMProvider, h]

theorem getLLMProvider_error_of_falsy (ok ak : Option String)
    (h1 : jsTruthyOpt ok = false) (h2 : jsTruthyOpt ak = false) :
    getLLMProvider ok ak = .error noApiKeyMsg := by
  simp [getLLMProvider, h1, h2]

theorem getLLMProvider_anthropic_of_fallback (ok ak : Option String)
    (h1 : jsTruthyOpt ok = false) (h2 : jsTruthyOpt ak = true) :
    getLLMProvider ok ak = .ok { provider := .anthropic, apiKey := ak } := by
  simp [getLLMProvider, h1, h2]

theorem performLLMDispatch_openai (messages : List LLMMessage)
    (options : LLMInferenceOptions) (ok ak : Option String)
    (h : jsTruthyOpt ok = true) :
    performLLMDispatch messages options ok ak =
      .ok (.openaiReq (buildOpenAIRequest messages options)) := by
  obtain ⟨k, rfl⟩ := jsTruthyOpt_some ok h
  unfold performLLMDispatch
  rw [getLLMProvider_openai_of_truthy (some k) ak h]

theorem performLLMDispatch_error (messages : List LLMMessage)
    (options : LLMInferenceOptions) (ok ak : Option String)
    (h1 : jsTruthyOpt ok = false) (h2 : jsTruthyOpt ak = false) :
    performLLMDispatch messages options ok ak = .error noApiKeyMsg := by
  unfold performLLMDispatch
  rw [getLLMProvider_error_of_falsy ok ak h1 h2]

theorem performLLMDispatch_anthropic (messages : List LLMMessage)
    (options : LLMInferenceOptions) (ok ak : Option String)
    (h1 : jsTruthyOpt ok = false) (h2 : jsTruthyOpt ak = true) :
    performLLMDispatch messages options ok ak =
      .ok (.anthropicReq (buildAnthropicRequest messages options)) := by
  obtain ⟨k, rfl⟩ := jsTruthyOpt_some ak h2
  unfold performLLMDispatch
  rw [getLLMProvider_anthropic_of_fallback ok (some k) h1 h2]

theorem performLLMInference_error (messages : List LLMMessage)
    (options : LLMInferenceOptions) (ok ak : Option String)
    (oFetch : OpenAIRequest → OpenAIResponse)
    (aFetch : AnthropicRequest → AnthropicHttpResult)
    (h1 : jsTruthyOpt ok = false) (h2 : jsTruthyOpt ak = false) :
    performLLMInference messages options ok ak oFetch aFetch = .error noApiKeyMsg := by
  unfold performLLMInference
  rw [getLLMProvider_error_of_falsy ok ak h1 h2]

/-! ## Claim C2 -/

/-- **C2**: the maximum-output-size field actually dispatched is
`min(m, 5000)` for the OpenAI variant and `min(m, 4096)` for the Anthropic
variant, where `m` is the requested maximum. -/
theorem performLLMDispatch_clamps (messages : List LLMMessage)
    (options : LLMInferenceOptions) (openaiKey anthropicKey : Option String)
    (m : Nat) (hm : options.maxTokens = some m) :
    (buildOpenAIRequest messages options).max_tokens = Nat.min m 5000 ∧
    (buildAnthropicRequest messages options).max_tokens = Nat.min m 4096 ∧
    (∀ r, performLLMDispatch messages options openaiKey anthropicKey =
        .ok (.openaiReq r) → r.max_tokens = Nat.min m 5000) ∧
    (∀ r, performLLMDispatch messages options openaiKey anthropicKey =
        .ok (.anthropicReq r) → r.max_tokens = Nat.min m 4096) := by
  have hopenai : (buildOpenAIRequest messages options).max_tokens = Nat.min m 5000 := by
    simp [buildOpenAIRequest, hm]
  have hanthropic : (buildAnthropicRequest messages options).max_tokens = Nat.min m 4096 := by
    simp [buildAnthropicRequest, hm]
  refine ⟨hopenai, hanthropic, ?_, ?_⟩
  · intro r hr
    rcases h1 : jsTruthyOpt openaiKey with _ | _
    · rcases h2 : jsTruthyOpt anthropicKey with _ | _
      · rw [performLLMDispatch_error messages options _ _ h1 h2] at hr
        exact absurd hr (by simp)
      · rw [performLLMDispatch_anthropic messages options _ _ h1 h2] at hr
        exact absurd hr (by simp)
    · rw [performLLMDispatch_openai messages options _ _ h1] at hr
      injection hr with hr
      injection hr with hr
      rw [← hr]
      exact hopenai
  · intro r hr
    rcases h1 : jsTruthyOpt openaiKey with _ | _
    · rcases h2 : jsTruthyOpt anthropicKey with _ | _
      · rw [performLLMDispatch_error messages options _ _ h1 h2] at hr
        exact absurd hr (by simp)
      · rw [performLLMDispatch_anthropic messages options _ _ h1 h2] at hr
        injection hr with hr
        injection hr with hr
        rw [← hr]
        exact hanthropic
    · rw [performLLMDispatch_openai messages options _ _ h1] at hr
      exact absurd hr (by simp)

/-- Witness for C2: requesting 20000 dispatches exactly 5000 on the backend
whose ceiling is 5000, and 4096 on the one whose ceiling is 4096. -/
theorem performLLMDispatch_clamps_witness :
    (buildOpenAIRequest [] { maxTokens := some 20000 }).max_tokens = 5000 ∧
    (buildAnthropicRequest [] { maxTokens := some 20000 }).max_tokens = 4096 := by
  have h := performLLMDispatch_clamps [] { maxTokens := some 20000 }
    (some "sk-test") none 20000 rfl
  refine ⟨?_, ?_⟩
  · rw [h.1]
    decide
  · rw [h.2.1]
    decide

/-! ## Claim C3 -/

/-- **C3**: with both credential sources absent (falsy), `getLLMProvider` —
and hence `performLLMDispatch` / `performLLMInference` for any backend
responses — rejects with the credential-missing error, and no request is
dispatched; whenever the OpenAI source is present, the selected provider is
the OpenAI variant (the Anthropic source is never consulted). -/
theorem getLLMProvider_priority (openaiKey anthropicKey : Option String) :
    (jsTruthyOpt openaiKey = false → jsTruthyOpt anthropicKey = false →
      getLLMProvider openaiKey anthropicKey = .error noApiKeyMsg ∧
      (∀ messages options, performLLMDispatch messages options openaiKey anthropicKey =
        .error noApiKeyMsg) ∧
      (∀ messages options oFetch aFetch,
        performLLMInference messages options openaiKey anthropicKey oFetch aFetch =
          .error noApiKeyMsg) ∧
      (∀ prompt sm options oFetch aFetch,
        invoke_llm prompt sm options openaiKey anthropicKey oFetch aFetch =
          .error noApiKeyMsg)) ∧
    (jsTruthyOpt openaiKey = true →
      ∃ p, getLLMProvider openaiKey anthropicKey = .ok p ∧ p.provider = .openai) := by
  constructor
  · intro h1 h2
    exact ⟨getLLMProvider_error_of_falsy _ _ h1 h2,
      fun messages options => performLLMDispatch_error messages options _ _ h1 h2,
      fun messages options oFetch aFetch =>
        performLLMInference_error messages options _ _ oFetch aFetch h1 h2,
      fun prompt sm options oFetch aFetch =>
        performLLMInference_error _ _ _ _ oFetch aFetch h1 h2⟩
  · intro h
    exact ⟨{ provider := .openai, clientKey := openaiKey },
      getLLMProvider_openai_of_truthy _ _ h, rfl⟩

/-- Witness for C3: both sources absent rejects; OpenAI source present
selects the OpenAI variant. -/
theorem getLLMProvider_priority_witness :
    getLLMProvider none none = .error noApiKeyMsg ∧
    (∃ p, getLLMProvider (some "sk-test") (some "sk-ant") = .ok p ∧
      p.provider = .openai) := by
  refine ⟨((getLLMProvider_priority none none).1 (by decide) (by decide)).1, ?_⟩
  exact (getLLMProvider_priority (some "sk-test") (some "sk-ant")).2 (by decide)

/-! ## Claim C4 -/

/-- **C4** (counterexample): the claim names the sentinel
`"no analysis available"`; the literal returned by `performLLMInference`
when the expected text path is absent is `"No response available"`. -/
theorem performLLMInference_sentinel_literal :
    performLLMInference [] {} (some "sk-test") none
        (fun _ => {}) (fun _ => .success {}) = .ok "No response available" ∧
    "No response available" ≠ "no analysis available" := by
  constructor
  · rfl
  · decide

/-- **C4** (amended): for every successfully parsed backend response in
which the expected text path (`choices[0].message.content` for the OpenAI
variant, `content[0].text` for the Anthropic variant) is absent,
`performLLMInference` resolves to the literal sentinel string
`"No response available"` and does not throw. -/
theorem performLLMInference_sentinel (r : OpenAIResponse) (a : AnthropicResponse) :
    (openaiTextPath r = none → extractOpenAIText r = "No response available") ∧
    (anthropicTextPath a = none → extractAnthropicText a = "No response available") ∧
    (∀ messages options k, jsTruthyOpt (some k) = true → openaiTextPath r = none →
      performLLMInference messages options (some k) none
        (fun _ => r) (fun _ => .success a) = .ok "No response available") ∧
    (∀ messages options k, jsTruthyOpt (some k) = true → anthropicTextPath a = none →
      performLLMInference messages options none (some k)
        (fun _ => r) (fun _ => .success a) = .ok "No response available") := by
  refine ⟨?_, ?_, ?_, ?_⟩
  · intro h
    simp [extractOpenAIText, h, jsOrOpt]
  · intro h
    simp [extractAnthropicText, h, jsOrOpt]
  · intro messages options k hk h
    unfold performLLMInference
    rw [getLLMProvider_openai_of_truthy (some k) none hk]
    show Except.ok (extractOpenAIText r) = .ok "No response available"
    rw [show extractOpenAIText r = "No response available" by simp [extractOpenAIText, h, jsOrOpt]]
  · intro messages options k hk h
    unfold performLLMInference
    rw [getLLMProvider_anthropic_of_fallback none (some k) (by decide) hk]
    show Except.ok (extractAnthropicText a) = .ok "No response available"
    rw [show extractAnthropicText a = "No response available" by simp [extractAnthropicText, h, jsOrOpt]]

/-- Witness for C4 (amended): a response with no choices and a response with
no content blocks both resolve to the sentinel, end to end. -/
theorem performLLMInference_sentinel_witness :
    extractOpenAIText {} = "No response available" ∧
    performLLMInference [] {} none (some "sk-ant")
        (fun _ => {}) (fun _ => .success {}) = .ok "No response available" := by
  have h := performLLMInference_sentinel {} {}
  exact ⟨h.1 rfl, h.2.2.2 [] {} "sk-ant" (by decide) rfl⟩

/-! ## Claim C7 -/

/-- **C7**: `getProjectTree` removes every tracked path containing an
excluded directory name as a component before folding the tree, and the
constructed tree therefore contains no node whose path (key sequence)
includes a component from the excluded-directory set. -/
theorem getProjectTree_excludes (lsFiles : String) (maxDepth : Nat) :
    (∀ f ∈ projectTreeFilteredFiles lsFiles, ∀ part ∈ jsSplit '/' f,
        getExcludedDirectories.contains part = false) ∧
    (∀ path, EPath (buildTree (projectTreeFilteredFiles lsFiles) maxDepth) path →
      ∀ comp ∈ path, getExcludedDirectories.contains comp = false) := by
  have hfilt : ∀ f ∈ projectTreeFilteredFiles lsFiles, ∀ part ∈ jsSplit '/' f,
      getExcludedDirectories.contains part = false := by
    intro f hf part hp
    have hmem := (List.mem_filter.mp hf).2
    simp only [Bool.not_eq_true', List.any_eq_false] at hmem
    exact Bool.eq_false_iff.mpr (hmem part hp)
  refine ⟨hfilt, ?_⟩
  intro path hpath comp hc
  exact epath_ok (fun k => getExcludedDirectories.contains k = false) _ path hpath
    (buildTree_ok _ _ maxDepth hfilt) comp hc

/-- Witness for C7: a listing with a `node_modules` path — the kept file's
components are not excluded, and a concrete path of the built tree has no
excluded component. -/
theorem getProjectTree_excludes_witness :
    getExcludedDirectories.contains "src" = false ∧
    getExcludedDirectories.contains "main.ts" = false := by
  have h := getProjectTree_excludes "src/main.ts\nnode_modules/pkg/index.js" 3
  have hpath : EPath (buildTree (projectTreeFilteredFiles
      "src/main.ts\nnode_modules/pkg/index.js") 3) ["src", "main.ts"] := by
    have hb : buildTree (projectTreeFilteredFiles
        "src/main.ts\nnode_modules/pkg/index.js") 3 =
        .consDir "src" (.consFile "main.ts" .nil) .nil := by decide
    rw [hb]
    exact EPath.child "src" _ _ ["main.ts"] (EPath.headFile "main.ts" .nil)
  refine ⟨?_, ?_⟩
  · exact h.2 ["src", "main.ts"] hpath "src" (by decide)
  · exact h.2 ["src", "main.ts"] hpath "main.ts" (by decide)
